import Mathlib

/-!
Verification of the fusion-bend-sheet core against its specification.

Shallow embedding of:
* `src/core/calculations.py` (`validate_clr_consistency`,
  `calculate_straights_and_bends`, `build_segments_and_marks`),
* `src/core/geometry_extraction.py` (`determine_primary_axis`),
* `src/commands/createBendSheet/bend_sheet_generator.py`
  (`BendSheetGenerator.generate`).

Python floats are modelled by rationals (`ℚ`).  The module
`src/core/geometry.py` is imported by the code above but is not part of the
source tree; its functions are modelled from the spec (§4.1 Vector Math),
see the individual doc comments.  Likewise `src/models/bend_data.py` only
declares plain record types whose fields are fully determined by their use
in `calculations.py` and the test-suite; they are modelled as structures.
-/

namespace TubeBendSheet

/-- A triple of rationals.  The source declares `Point3D = Vector3D =
tuple[float, float, float]` in `src/models/types.py`; we use a structure
with named coordinates instead of positional indexing. -/
structure Vec3 where
  x : ℚ
  y : ℚ
  z : ℚ
deriving DecidableEq, Repr

abbrev Point3D := Vec3
abbrev Vector3D := Vec3

/-- Modelled from the spec: `distance_between_points` in the missing
`src/core/geometry.py` returns the Euclidean distance (§4.1).  The exact
square root is irrational, so we embed the squared distance; every use of
`distance_between_points` in `calculations.py` is a comparison of two
distances, and the theorem `distSq_lt_iff_sqrt_lt` below shows comparing
squared distances is equivalent to comparing the distances themselves. -/
def distSq (p q : Point3D) : ℚ :=
  (p.x - q.x) ^ 2 + (p.y - q.y) ^ 2 + (p.z - q.z) ^ 2

theorem distSq_nonneg (p q : Point3D) : 0 ≤ distSq p q := by
  unfold distSq; positivity

/-- Comparing squared distances is the same as comparing Euclidean
distances: the square root is strictly monotone on nonnegative reals.
This justifies embedding `distance_between_points` comparisons via
`distSq`. -/
theorem distSq_lt_iff_sqrt_lt (p q r s : Point3D) :
    distSq p q < distSq r s ↔
      Real.sqrt ((distSq p q : ℚ) : ℝ) < Real.sqrt ((distSq r s : ℚ) : ℝ) := by
  rw [Real.sqrt_lt_sqrt_iff (by exact_mod_cast distSq_nonneg p q)]
  exact_mod_cast Iff.rfl

/-- Modelled from the spec: squared Euclidean norm; `magnitude` in the
missing `src/core/geometry.py` is the Euclidean norm (§4.1).  Degeneracy
checks (`magnitude < 1e-10`) are embedded exactly as
`magnitudeSq < (1e-10)^2` since both sides are nonnegative. -/
def magnitudeSq (v : Vector3D) : ℚ :=
  v.x ^ 2 + v.y ^ 2 + v.z ^ 2

/-- Modelled from the spec: `cross_product` in the missing
`src/core/geometry.py` is the standard cross product (§4.1). -/
def cross_product (a b : Vector3D) : Vector3D :=
  ⟨a.y * b.z - a.z * b.y, a.z * b.x - a.x * b.z, a.x * b.y - a.y * b.x⟩

/-- Squared degeneracy threshold: the spec (§3) calls a vector of magnitude
below `1e-10` degenerate. -/
def zeroTolSq : ℚ := 1 / 10 ^ 20

/-- Modelled from the spec: the numeric values computed by
`angle_between_vectors`, `calculate_rotation` and `magnitude` in the
missing `src/core/geometry.py`, and by `math.radians`, are transcendental
(they involve `atan2`, `sqrt` and `π`), so we abstract them as an
arbitrary family of functions.  Every theorem below holds for every
choice; the failure conditions of the geometry functions are modelled
exactly (see `angle_between_vectors` / `calculate_rotation`). -/
structure GeomFns where
  angleVal : Vector3D → Vector3D → ℚ
  rotVal : Vector3D → Vector3D → ℚ
  radiansVal : ℚ → ℚ
  magVal : Vector3D → ℚ

/-- Errors raised by the Python code: `ValueError("No lines provided …")`
and `ValueError("Insufficient vectors …")` in
`src/core/calculations.py`, and the spec's `ZeroVectorError` raised by
the missing `src/core/geometry.py` (§4.1). -/
inductive PyError
  | noLines
  | insufficientGeometry (nvec narcs : ℕ)
  | zeroVector (firstOperand : Bool)
deriving DecidableEq, Repr

/-- Modelled from the spec: `angle_between_vectors` (§4.1) fails with
`ZeroVectorError` if either input's magnitude is below `1e-10`
(distinguishing which operand), otherwise returns the angle in degrees
(value abstracted in `GeomFns`). -/
def angle_between_vectors (G : GeomFns) (a b : Vector3D) : Except PyError ℚ :=
  if magnitudeSq a < zeroTolSq then .error (.zeroVector true)
  else if magnitudeSq b < zeroTolSq then .error (.zeroVector false)
  else .ok (G.angleVal a b)

/-- Modelled from the spec: `calculate_rotation` (§4.1) fails with
`ZeroVectorError` if either plane normal is degenerate, otherwise returns
the angle between the normals in degrees (value abstracted). -/
def calculate_rotation (G : GeomFns) (n1 n2 : Vector3D) : Except PyError ℚ :=
  if magnitudeSq n1 < zeroTolSq then .error (.zeroVector true)
  else if magnitudeSq n2 < zeroTolSq then .error (.zeroVector false)
  else .ok (G.rotVal n1 n2)

/-- Unit configuration, from `src/models/units.py` (`UnitConfig`). -/
structure UnitConfig where
  is_metric : Bool
  unit_name : String
  unit_symbol : String
  cm_to_unit : ℚ
  default_tube_od : String
  default_precision : ℤ
deriving DecidableEq, Repr

/-- CLR tolerance as a ratio, `src/core/calculations.py:31`
(source name `CLR_TOLERANCE_RATIO`, value `0.002`). -/
def clrToleranceRate : ℚ := 2 / 1000

/-- Embedding of `validate_clr_consistency`
(`src/core/calculations.py:34-68`).  An arc is represented by its radius
in cm (the only attribute the function reads). -/
def validate_clr_consistency (arcs : List ℚ) (units : UnitConfig) :
    ℚ × Bool × List ℚ :=
  let clr_values := arcs.map (fun r => r * units.cm_to_unit)
  match clr_values with
  | [] => (0, false, [])
  | clr :: _ =>
      if clr ≤ 0 then (0, true, clr_values)
      else
        let tolerance := max (clr * clrToleranceRate) (1 / 1000)
        (clr, clr_values.any (fun c => decide (|c - clr| > tolerance)), clr_values)

/-- Modelled from the spec and the tests: `StraightSection` declared in the
missing `src/models/bend_data.py`; its fields are fixed by
`calculations.py:131-145` and `tests/test_calculations.py`.  The source
field `end` is a reserved word in Lean and is named `endPoint` here. -/
structure StraightSection where
  number : ℕ
  length : ℚ
  start : Point3D
  endPoint : Point3D
  vector : Vector3D
deriving DecidableEq, Repr

/-- Modelled from the spec and the tests: `BendData` declared in the
missing `src/models/bend_data.py` (fields fixed by
`calculations.py:170-175`). -/
structure BendData where
  number : ℕ
  angle : ℚ
  rotation : Option ℚ
  arc_length : ℚ
deriving DecidableEq, Repr

/-- Modelled from the spec and the tests: `PathSegment` declared in the
missing `src/models/bend_data.py` (fields fixed by
`calculations.py:203-225`). -/
structure PathSegment where
  segment_type : String
  name : String
  length : ℚ
  starts_at : ℚ
  ends_at : ℚ
  bend_angle : Option ℚ
  rotation : Option ℚ
deriving DecidableEq, Repr

/-- Modelled from the spec and the tests: `MarkPosition` declared in the
missing `src/models/bend_data.py` (fields fixed by
`calculations.py:238-243`). -/
structure MarkPosition where
  bend_num : ℕ
  mark_position : ℚ
  bend_angle : ℚ
  rotation : Option ℚ
deriving DecidableEq, Repr

/-! ## `calculate_straights_and_bends` (`src/core/calculations.py:71-177`)

A sketch line is represented by its pair of world-space endpoints (the
code reads exactly this via `get_sketch_entity_endpoints`); a sketch arc
by its radius in cm (the code reads only `len(arcs)` here). -/

/-- One step of the orientation correction
(`calculations.py:105-108` and `115-118`): swap the endpoint pair iff the
second endpoint is strictly nearer to the reference point. -/
def orientLine (ref : Point3D) (lp : Point3D × Point3D) : Point3D × Point3D :=
  if distSq lp.2 ref < distSq lp.1 ref then (lp.2, lp.1) else (lp.1, lp.2)

/-- The `corrected` list of `calculations.py:101-118`: the first line is
oriented against `path_start`, every later line against the previous
corrected line's end. -/
def correctFrom (ref : Point3D) : List (Point3D × Point3D) → List (Point3D × Point3D)
  | [] => []
  | lp :: rest =>
      orientLine ref lp :: correctFrom (orientLine ref lp).2 rest

/-- Componentwise difference `end − start` (`calculations.py:125`). -/
def vsub (b a : Point3D) : Vector3D :=
  ⟨b.x - a.x, b.y - a.y, b.z - a.z⟩

/-- Componentwise scaling by `cm_to_unit` (`calculations.py:134-143`). -/
def scalePoint (k : ℚ) (p : Point3D) : Point3D :=
  ⟨p.x * k, p.y * k, p.z * k⟩

/-- The direction vectors of the corrected lines (`calculations.py:124-126`). -/
def lineVectors (corrected : List (Point3D × Point3D)) : List Vector3D :=
  corrected.map (fun c => vsub c.2 c.1)

/-- One `StraightSection` from the `i`-th corrected line
(`calculations.py:124-145`). -/
def mkStraight (G : GeomFns) (units : UnitConfig) (i : ℕ)
    (c : Point3D × Point3D) : StraightSection :=
  let vector := vsub c.2 c.1
  { number := i + 1
    length := G.magVal vector * units.cm_to_unit
    start := scalePoint units.cm_to_unit c.1
    endPoint := scalePoint units.cm_to_unit c.2
    vector := vector }

/-- All straight sections (the first loop of `calculations.py:121-145`;
the Python `enumerate` index is the explicit counter `i`, started at `0`
by `calculate_straights_and_bends`). -/
def straightsFrom (G : GeomFns) (units : UnitConfig) :
    ℕ → List (Point3D × Point3D) → List StraightSection
  | _, [] => []
  | i, c :: rest => mkStraight G units i c :: straightsFrom G units (i + 1) rest

/-- The straight sections of a corrected chain, numbering from `1`. -/
def straightsOf (G : GeomFns) (units : UnitConfig)
    (corrected : List (Point3D × Point3D)) : List StraightSection :=
  straightsFrom G units 0 corrected

/-- The zero vector, used as the (unreachable, see the in-bounds guard at
`calculations.py:149`) default of `List.getD`. -/
def vzero : Vector3D := ⟨0, 0, 0⟩

/-- The bend loop of `calculations.py:162-175`, building bends
`i, i+1, …` while `n` counts the remaining arcs.  Python's raised
exceptions become `Except.error` and abort the whole loop. -/
def bendLoop (G : GeomFns) (clr : ℚ) (vectors normals : List Vector3D) :
    ℕ → ℕ → Except PyError (List BendData)
  | _, 0 => .ok []
  | i, n + 1 => do
      let bend_angle ← angle_between_vectors G (vectors.getD i vzero) (vectors.getD (i + 1) vzero)
      let arc_length := clr * G.radiansVal bend_angle
      let rotation : Option ℚ ←
        if 0 < i then do
          let r ← calculate_rotation G (normals.getD (i - 1) vzero) (normals.getD i vzero)
          pure (some r)
        else pure none
      let rest ← bendLoop G clr vectors normals (i + 1) n
      pure ({ number := i + 1, angle := bend_angle, rotation := rotation,
              arc_length := arc_length } :: rest)

/-- The plane normals computed at `calculations.py:155-158`. -/
def normalsOf (vectors : List Vector3D) (narcs : ℕ) : List Vector3D :=
  (List.range narcs).map
    (fun i => cross_product (vectors.getD i vzero) (vectors.getD (i + 1) vzero))

/-- Embedding of `calculate_straights_and_bends`
(`src/core/calculations.py:71-177`). -/
def calculate_straights_and_bends (G : GeomFns)
    (lines : List (Point3D × Point3D)) (arcs : List ℚ)
    (path_start : Point3D) (clr : ℚ) (units : UnitConfig) :
    Except PyError (List StraightSection × List BendData) :=
  if lines.isEmpty then .error .noLines
  else
    let corrected := correctFrom path_start lines
    let vectors := lineVectors corrected
    let straights := straightsOf G units corrected
    if vectors.length < arcs.length + 1 then
      .error (.insufficientGeometry vectors.length arcs.length)
    else
      (bendLoop G clr vectors (normalsOf vectors arcs.length) 0 arcs.length).map
        (fun bends => (straights, bends))

/-! ## `build_segments_and_marks` (`src/core/calculations.py:180-245`) -/

/-- The name of a bend segment (`calculations.py:219` and `234`). -/
def bendName (n : ℕ) : String := "BEND " ++ toString n

/-- One straight segment of the timeline (`calculations.py:203-211`). -/
def mkStraightSeg (s : StraightSection) (cum : ℚ) (rot : Option ℚ) : PathSegment :=
  { segment_type := "straight"
    name := "Straight " ++ toString s.number
    length := s.length
    starts_at := cum
    ends_at := cum + s.length
    bend_angle := none
    rotation := rot }

/-- One bend segment of the timeline (`calculations.py:217-225`). -/
def mkBendSeg (b : BendData) (cum : ℚ) : PathSegment :=
  { segment_type := "bend"
    name := bendName b.number
    length := b.arc_length
    starts_at := cum
    ends_at := cum + b.arc_length
    bend_angle := some b.angle
    rotation := none }

/-- The segment loop of `calculations.py:198-226`.  The Python loop walks
the straights with index `i` and consults `bends[i]`; the recursion peels
both lists in step (a bend segment is appended only while bends remain,
`i < len(bends)`). -/
def segLoop (cum : ℚ) : List StraightSection → List BendData → List PathSegment
  | [], _ => []
  | s :: ss, [] => mkStraightSeg s cum none :: segLoop (cum + s.length) ss []
  | s :: ss, b :: bs =>
      mkStraightSeg s cum b.rotation ::
        mkBendSeg b (cum + s.length) ::
          segLoop (cum + s.length + b.arc_length) ss bs

/-- The predicate of the `for seg in segments` search at
`calculations.py:233-236`. -/
def isBendSeg (n : ℕ) (seg : PathSegment) : Bool :=
  seg.segment_type == "bend" && seg.name == bendName n

/-- The mark position of one bend (`calculations.py:230-243`): the first
segment named like the bend (default start `0.0`), minus the die offset. -/
def markFor (segments : List PathSegment) (die_offset : ℚ) (b : BendData) :
    MarkPosition :=
  let bend_starts_at :=
    match segments.find? (isBendSeg b.number) with
    | some seg => seg.starts_at
    | none => 0
  { bend_num := b.number
    mark_position := bend_starts_at - die_offset
    bend_angle := b.angle
    rotation := b.rotation }

/-- Embedding of `build_segments_and_marks`
(`src/core/calculations.py:180-245`). -/
def build_segments_and_marks (straights : List StraightSection)
    (bends : List BendData) (extra_material die_offset : ℚ) :
    List PathSegment × List MarkPosition :=
  let segments := segLoop extra_material straights bends
  (segments, bends.map (markFor segments die_offset))

/-! ## `determine_primary_axis` (`src/core/geometry_extraction.py:86-111`) -/

/-- The `j`-th component of a triple (Python indexes the displacement
tuple with the axis index, `geometry_extraction.py:108`). -/
def comp (v : Vec3) (j : ℕ) : ℚ :=
  if j = 0 then v.x else if j = 1 then v.y else v.z

/-- Embedding of `determine_primary_axis`
(`src/core/geometry_extraction.py:86-111`).  Returns
`(axis_name, axis_index, current_direction, opposite_direction)`. -/
def determine_primary_axis (start stop : Point3D) : String × ℕ × String × String :=
  let displacement : Vector3D := vsub stop start
  let abs_disp : Vec3 := ⟨|displacement.x|, |displacement.y|, |displacement.z|⟩
  let max_disp := max (max abs_disp.x abs_disp.y) abs_disp.z
  let ai : String × ℕ :=
    if abs_disp.x = max_disp then ("X", 0)
    else if abs_disp.y = max_disp then ("Y", 1)
    else ("Z", 2)
  let current := if comp displacement ai.2 > 0 then "+" ++ ai.1 else "-" ++ ai.1
  let opposite := if comp displacement ai.2 > 0 then "-" ++ ai.1 else "+" ++ ai.1
  (ai.1, ai.2, current, opposite)

/-! ## `BendSheetGenerator.generate`
(`src/commands/createBendSheet/bend_sheet_generator.py:54-164`) -/

/-- A path element: the tagged variant of the spec (§9).  The generator
reads a line's endpoints (through `calculate_straights_and_bends`) and an
arc's radius (through `validate_clr_consistency`); those payloads are
captured here. -/
inductive PathElem
  | line (endpoints : Point3D × Point3D)
  | arc (radius : ℚ)
deriving DecidableEq, Repr

/-- Modelled from the spec: the parameter record produced by the missing
`src/commands/createBendSheet/input_parser.py` (`BendSheetParams`); the
fields are exactly those `generate` reads. -/
structure BendSheetParams where
  tube_od : ℚ
  die_offset : ℚ
  precision : ℤ
  min_grip : ℚ
  min_tail : ℚ
  bender_name : String
  die_name : String
deriving DecidableEq, Repr

/-- Modelled from the spec and the generator: `BendSheetData` declared in
the missing `src/models/bend_data.py`, fields fixed by
`bend_sheet_generator.py:136-162`. -/
structure BendSheetData where
  component_name : String
  tube_od : ℚ
  clr : ℚ
  die_offset : ℚ
  precision : ℤ
  min_grip : ℚ
  travel_direction : String
  starts_with_arc : Bool
  ends_with_arc : Bool
  clr_mismatch : Bool
  clr_values : List ℚ
  continuity_errors : List String
  straights : List StraightSection
  bends : List BendData
  segments : List PathSegment
  mark_positions : List MarkPosition
  extra_material : ℚ
  total_centerline : ℚ
  total_cut_length : ℚ
  units : UnitConfig
  bender_name : String
  die_name : String
  grip_violations : List ℕ
  min_tail : ℚ
  tail_violation : Bool
deriving DecidableEq, Repr

/-- Result record of the generator (`bend_sheet_generator.py:26-32`). -/
structure GenerationResult where
  success : Bool
  data : Option BendSheetData
  error : String
deriving DecidableEq, Repr

/-- Placeholder `StraightSection` used as `List.headD` / `List.getLastD`
default; unreachable because the generator indexes `straights` only after
its non-emptiness check (`bend_sheet_generator.py:96`). -/
def sdummy : StraightSection :=
  { number := 0, length := 0, start := ⟨0, 0, 0⟩, endPoint := ⟨0, 0, 0⟩,
    vector := ⟨0, 0, 0⟩ }

/-- The line elements of the ordered path
(`bend_sheet_generator.py:80-82`). -/
def pathLines (ordered_path : List PathElem) : List (Point3D × Point3D) :=
  ordered_path.filterMap
    (fun e => match e with | .line lp => some lp | .arc _ => none)

/-- The arc elements of the ordered path
(`bend_sheet_generator.py:83-85`). -/
def pathArcs (ordered_path : List PathElem) : List ℚ :=
  ordered_path.filterMap
    (fun e => match e with | .line _ => none | .arc r => some r)

/-- Embedding of `BendSheetGenerator.generate`
(`src/commands/createBendSheet/bend_sheet_generator.py:54-164`).  The
Python method returns a `GenerationResult` but exceptions raised by
`calculate_straights_and_bends` propagate out of it; `Except.error`
models such an escaping exception, `Except.ok` a returned result. -/
def generate (G : GeomFns) (units : UnitConfig)
    (ordered_path : List PathElem) (start_point : Point3D)
    (params : BendSheetParams) (component_name : String)
    (travel_direction : String) (starts_with_arc ends_with_arc : Bool) :
    Except PyError GenerationResult :=
  (calculate_straights_and_bends G (pathLines ordered_path)
      (pathArcs ordered_path) start_point
      (validate_clr_consistency (pathArcs ordered_path) units).1 units).map
    (fun sb =>
      if sb.1.isEmpty then
        { success := false, data := none,
          error := "No straight sections found in path. Cannot generate bend sheet." }
      else
        let straights := sb.1
        let bends := sb.2
        let first_feed := (straights.headD sdummy).length - params.die_offset
        let extra_material :=
          if params.min_grip > 0 then max 0 (params.min_grip - first_feed) else 0
        let grip_violations : List ℕ :=
          if params.min_grip > 0 ∧ 1 < straights.length then
            (straights.dropLast.filter
              (fun s => decide (s.length < params.min_grip))).map
              (fun s => s.number)
          else []
        let tail_violation : Bool :=
          if params.min_tail > 0 ∧ 0 < straights.length then
            decide ((straights.getLastD sdummy).length < params.min_tail)
          else false
        let sm := build_segments_and_marks straights bends extra_material params.die_offset
        let total_straights := (straights.map (fun s => s.length)).sum
        let total_arcs := (bends.map (fun b => b.arc_length)).sum
        let total_centerline := total_straights + total_arcs
        let total_cut_length := total_centerline + extra_material
        { success := true
          data := some
            { component_name := component_name
              tube_od := params.tube_od
              clr := (validate_clr_consistency (pathArcs ordered_path) units).1
              die_offset := params.die_offset
              precision := params.precision
              min_grip := params.min_grip
              travel_direction := travel_direction
              starts_with_arc := starts_with_arc
              ends_with_arc := ends_with_arc
              clr_mismatch := (validate_clr_consistency (pathArcs ordered_path) units).2.1
              clr_values := (validate_clr_consistency (pathArcs ordered_path) units).2.2
              continuity_errors := []
              straights := straights
              bends := bends
              segments := sm.1
              mark_positions := sm.2
              extra_material := extra_material
              total_centerline := total_centerline
              total_cut_length := total_cut_length
              units := units
              bender_name := params.bender_name
              die_name := params.die_name
              grip_violations := grip_violations
              min_tail := params.min_tail
              tail_violation := tail_violation }
          error := "" })

/-! ## Concrete fixtures used by witnesses and counterexamples -/

/-- A unit configuration with `cm_to_unit = 1`, as in the test-suite's
`MockUnitConfig` (`src/tests/test_calculations.py:18-21`). -/
def mockUnits : UnitConfig :=
  { is_metric := false, unit_name := "in", unit_symbol := "in",
    cm_to_unit := 1, default_tube_od := "1.75", default_precision := 16 }

/-- A concrete instance of the abstracted transcendental functions. -/
def gconst : GeomFns :=
  { angleVal := fun _ _ => 0, rotVal := fun _ _ => 0,
    radiansVal := fun a => a, magVal := fun _ => 0 }

/-- Concrete generator parameters. -/
def params0 : BendSheetParams :=
  { tube_od := 7 / 4, die_offset := 1 / 2, precision := 16, min_grip := 3,
    min_tail := 2, bender_name := "b", die_name := "d" }

/-- A straight section of a given number and length (the other fields as
in the test helper `make_straight`, `src/tests/test_calculations.py:118-126`). -/
def st (n : ℕ) (l : ℚ) : StraightSection :=
  { number := n, length := l, start := ⟨0, 0, 0⟩, endPoint := ⟨l, 0, 0⟩,
    vector := ⟨l, 0, 0⟩ }

/-! ## C3: CLR consistency validation -/

/-- C3: `validate_clr_consistency` returns CLR `0.0` with no mismatch for
an empty arc list; otherwise the working CLR is the first arc's radius
converted to display units; the mismatch flag is set iff some converted
radius deviates from the first by more than `max (CLR * 0.002) 0.001`, or
the first value is `≤ 0` (then the working CLR is `0.0` and mismatch is
true).  Concretely, display radii `[5.0, 5.1]` give mismatch true,
`[5.0, 5.005]` give mismatch false, `[0.01, 0.0105]` give mismatch
false. -/
theorem clr_consistency_spec :
    (∀ (arcs : List ℚ) (units : UnitConfig),
      (validate_clr_consistency arcs units).2.2 =
        arcs.map (fun r => r * units.cm_to_unit) ∧
      (arcs = [] → validate_clr_consistency arcs units = (0, false, [])) ∧
      (∀ c0 rest, arcs.map (fun r => r * units.cm_to_unit) = c0 :: rest →
        (c0 ≤ 0 → validate_clr_consistency arcs units = (0, true, c0 :: rest)) ∧
        (0 < c0 →
          (validate_clr_consistency arcs units).1 = c0 ∧
          ((validate_clr_consistency arcs units).2.1 = true ↔
            ∃ c ∈ c0 :: rest, max (c0 * (2 / 1000)) (1 / 1000) < |c - c0|)))) ∧
    validate_clr_consistency [5, 5.1] mockUnits = (5, true, [5, 5.1]) ∧
    (validate_clr_consistency [5, 5.005] mockUnits).2.1 = false ∧
    (validate_clr_consistency [0.01, 0.0105] mockUnits).2.1 = false ∧
    validate_clr_consistency [0] mockUnits = (0, true, [0]) := by
  constructor
  · intro arcs units
    refine ⟨?_, ?_, ?_⟩
    · unfold validate_clr_consistency
      rcases h : arcs.map (fun r => r * units.cm_to_unit) with _ | ⟨c0, rest⟩ <;>
        simp [h]
      split <;> simp
    · intro h; subst h; rfl
    · intro c0 rest h
      constructor
      · intro hle
        unfold validate_clr_consistency
        simp only [h]
        simp [hle]
      · intro hpos
        unfold validate_clr_consistency
        simp only [h]
        rw [if_neg (by linarith)]
        refine ⟨rfl, ?_⟩
        simp only [List.any_eq_true, decide_eq_true_iff, clrToleranceRate, gt_iff_lt]
  · refine ⟨?_, ?_, ?_, ?_⟩ <;>
      norm_num [validate_clr_consistency, mockUnits, clrToleranceRate,
        abs_of_nonneg, abs_of_pos]

/-- Witness for C3: the general characterization applied to the concrete
display radii `[5.0, 5.1]`. -/
theorem clr_consistency_spec_witness :
    (validate_clr_consistency [5, 5.1] mockUnits).1 = 5 ∧
    ((validate_clr_consistency [5, 5.1] mockUnits).2.1 = true ↔
      ∃ c ∈ [(5 : ℚ), 5.1], max ((5 : ℚ) * (2 / 1000)) (1 / 1000) < |c - 5|) := by
  have h := ((clr_consistency_spec.1 [5, 5.1] mockUnits).2.2 5 [5.1]
    (by norm_num [mockUnits])).2 (by norm_num)
  exact h

/-! ## C9: primary-axis determination -/

/-- C9: `determine_primary_axis` selects the axis whose absolute
displacement component is greatest, breaking exact ties in the priority
order X, then Y, then Z (every earlier axis has strictly smaller absolute
component); the reported direction label is `+axis` when the displacement
component is positive and `-axis` otherwise, the opposite label being its
negation; exactly zero displacement yields the X axis. -/
theorem primary_axis_spec (start stop : Point3D) :
    (determine_primary_axis start stop).2.1 < 3 ∧
    (determine_primary_axis start stop).1 =
      (if (determine_primary_axis start stop).2.1 = 0 then "X"
       else if (determine_primary_axis start stop).2.1 = 1 then "Y" else "Z") ∧
    (∀ j, j < 3 → |comp (vsub stop start) j| ≤
      |comp (vsub stop start) (determine_primary_axis start stop).2.1|) ∧
    (∀ j, j < (determine_primary_axis start stop).2.1 →
      |comp (vsub stop start) j| <
        |comp (vsub stop start) (determine_primary_axis start stop).2.1|) ∧
    (determine_primary_axis start stop).2.2.1 =
      (if 0 < comp (vsub stop start) (determine_primary_axis start stop).2.1
       then "+" else "-") ++ (determine_primary_axis start stop).1 ∧
    (determine_primary_axis start stop).2.2.2 =
      (if 0 < comp (vsub stop start) (determine_primary_axis start stop).2.1
       then "-" else "+") ++ (determine_primary_axis start stop).1 ∧
    (vsub stop start = vzero → (determine_primary_axis start stop).1 = "X") := by
  set d : Vec3 := vsub stop start with hd
  by_cases h1 : |d.x| = max (max |d.x| |d.y|) |d.z|
  · have key : determine_primary_axis start stop =
        ("X", 0, (if 0 < d.x then "+" ++ "X" else "-" ++ "X"),
          (if 0 < d.x then "-" ++ "X" else "+" ++ "X")) := by
      unfold determine_primary_axis
      rw [← hd]
      dsimp only
      rw [if_pos h1]
      simp [comp, gt_iff_lt]
    rw [key]
    refine ⟨by norm_num, by norm_num, ?_, ?_, ?_, ?_, fun _ => rfl⟩
    · intro j hj
      interval_cases j <;> simp only [comp] <;> norm_num
      · rw [h1]; exact le_max_of_le_left (le_max_right _ _)
      · rw [h1]; exact le_max_right _ _
    · intro j hj
      exact absurd hj (Nat.not_lt_zero j)
    · simp only [comp]; norm_num; split_ifs <;> rfl
    · simp only [comp]; norm_num; split_ifs <;> rfl
  · by_cases h2 : |d.y| = max (max |d.x| |d.y|) |d.z|
    · have key : determine_primary_axis start stop =
          ("Y", 1, (if 0 < d.y then "+" ++ "Y" else "-" ++ "Y"),
            (if 0 < d.y then "-" ++ "Y" else "+" ++ "Y")) := by
        unfold determine_primary_axis
        rw [← hd]
        dsimp only
        rw [if_neg h1, if_pos h2]
        simp [comp, gt_iff_lt]
      have hxlt : |d.x| < |d.y| := by
        have h := lt_of_le_of_ne
          (le_max_of_le_left (le_max_left |d.x| |d.y|) (c := |d.z|)) h1
        rw [← h2] at h
        exact h
      rw [key]
      refine ⟨by norm_num, by norm_num, ?_, ?_, ?_, ?_, ?_⟩
      · intro j hj
        interval_cases j <;> simp only [comp] <;> norm_num
        · exact le_of_lt hxlt
        · rw [h2]; exact le_max_right _ _
      · intro j hj
        interval_cases j
        simpa only [comp] using hxlt
      · simp only [comp]; norm_num; split_ifs <;> rfl
      · simp only [comp]; norm_num; split_ifs <;> rfl
      · intro hz
        exfalso
        apply h1
        have hx : d.x = 0 := by rw [hz]; rfl
        have hy : d.y = 0 := by rw [hz]; rfl
        have hzc : d.z = 0 := by rw [hz]; rfl
        rw [hx, hy, hzc]
        simp
    · have key : determine_primary_axis start stop =
          ("Z", 2, (if 0 < d.z then "+" ++ "Z" else "-" ++ "Z"),
            (if 0 < d.z then "-" ++ "Z" else "+" ++ "Z")) := by
        unfold determine_primary_axis
        rw [← hd]
        dsimp only
        rw [if_neg h1, if_neg h2]
        simp [comp, gt_iff_lt]
      have hzmax : max (max |d.x| |d.y|) |d.z| = |d.z| := by
        rcases max_choice (max |d.x| |d.y|) |d.z| with h | h
        · rcases max_choice |d.x| |d.y| with h3 | h3
          · exact absurd (h.trans h3).symm h1
          · exact absurd (h.trans h3).symm h2
        · exact h
      have hxlt : |d.x| < |d.z| := by
        have h := lt_of_le_of_ne
          (le_max_of_le_left (le_max_left |d.x| |d.y|) (c := |d.z|)) h1
        rw [hzmax] at h
        exact h
      have hylt : |d.y| < |d.z| := by
        have h := lt_of_le_of_ne
          (le_max_of_le_left (le_max_right |d.x| |d.y|) (c := |d.z|)) h2
        rw [hzmax] at h
        exact h
      rw [key]
      refine ⟨by norm_num, by norm_num, ?_, ?_, ?_, ?_, ?_⟩
      · intro j hj
        interval_cases j <;> simp only [comp] <;> norm_num
        · exact le_of_lt hxlt
        · exact le_of_lt hylt
      · intro j hj
        interval_cases j <;> simp only [comp] <;> norm_num
        · exact hxlt
        · exact hylt
      · simp only [comp]; norm_num; split_ifs <;> rfl
      · simp only [comp]; norm_num; split_ifs <;> rfl
      · intro hz
        exfalso
        apply h1
        have hx : d.x = 0 := by rw [hz]; rfl
        have hy : d.y = 0 := by rw [hz]; rfl
        have hzc : d.z = 0 := by rw [hz]; rfl
        rw [hx, hy, hzc]
        simp

/-- Witness for C9: at displacement `(3, -5, 2)` the selected axis index
is `1` (the Y axis) and the X component is strictly smaller in absolute
value. -/
theorem primary_axis_spec_witness :
    |comp (vsub ⟨3, -5, 2⟩ ⟨0, 0, 0⟩) 0| <
      |comp (vsub ⟨3, -5, 2⟩ ⟨0, 0, 0⟩)
        (determine_primary_axis ⟨0, 0, 0⟩ ⟨3, -5, 2⟩).2.1| :=
  (primary_axis_spec ⟨0, 0, 0⟩ ⟨3, -5, 2⟩).2.2.2.1 0
    (by norm_num [determine_primary_axis, vsub, comp])

/-! ## Helper lemmas about `calculate_straights_and_bends` -/

theorem exbind_ok {α β ε : Type} (a : α) (f : α → Except ε β) :
    (Except.ok a >>= f) = f a := rfl

theorem exbind_error {α β ε : Type} (e : ε) (f : α → Except ε β) :
    ((Except.error e : Except ε α) >>= f) = Except.error e := rfl

theorem expure {α ε : Type} (a : α) : (pure a : Except ε α) = Except.ok a := rfl

theorem exmap_ok {α β ε : Type} (f : α → β) (a : α) :
    Except.map f (Except.ok a : Except ε α) = Except.ok (f a) := rfl

theorem correctFrom_length (lines : List (Point3D × Point3D)) :
    ∀ ref, (correctFrom ref lines).length = lines.length := by
  induction lines with
  | nil => intro ref; rfl
  | cons lp rest ih => intro ref; simp [correctFrom, ih]

theorem lineVectors_length (c : List (Point3D × Point3D)) :
    (lineVectors c).length = c.length := by
  simp [lineVectors]

theorem straightsFrom_length (G : GeomFns) (units : UnitConfig)
    (c : List (Point3D × Point3D)) :
    ∀ i, (straightsFrom G units i c).length = c.length := by
  induction c with
  | nil => intro i; rfl
  | cons a l ih => intro i; simp [straightsFrom, ih]

theorem straightsOf_length (G : GeomFns) (units : UnitConfig)
    (c : List (Point3D × Point3D)) :
    (straightsOf G units c).length = c.length :=
  straightsFrom_length G units c 0

theorem angle_between_vectors_error {G : GeomFns} {a b : Vector3D} {e : PyError}
    (h : angle_between_vectors G a b = .error e) :
    ∃ w, e = PyError.zeroVector w := by
  unfold angle_between_vectors at h
  by_cases h1 : magnitudeSq a < zeroTolSq
  · rw [if_pos h1] at h
    exact ⟨true, (Except.error.inj h).symm⟩
  · rw [if_neg h1] at h
    by_cases h2 : magnitudeSq b < zeroTolSq
    · rw [if_pos h2] at h
      exact ⟨false, (Except.error.inj h).symm⟩
    · rw [if_neg h2] at h
      exact Except.noConfusion h

theorem calculate_rotation_error {G : GeomFns} {a b : Vector3D} {e : PyError}
    (h : calculate_rotation G a b = .error e) :
    ∃ w, e = PyError.zeroVector w := by
  unfold calculate_rotation at h
  by_cases h1 : magnitudeSq a < zeroTolSq
  · rw [if_pos h1] at h
    exact ⟨true, (Except.error.inj h).symm⟩
  · rw [if_neg h1] at h
    by_cases h2 : magnitudeSq b < zeroTolSq
    · rw [if_pos h2] at h
      exact ⟨false, (Except.error.inj h).symm⟩
    · rw [if_neg h2] at h
      exact Except.noConfusion h

/-- The bend loop can only fail with a `ZeroVectorError` (raised by the
angle and rotation computations); it never raises the insufficiency or
no-lines `ValueError`s. -/
theorem bendLoop_error {G : GeomFns} {clr : ℚ} {v ns : List Vector3D} :
    ∀ (m i : ℕ) (e : PyError), bendLoop G clr v ns i m = .error e →
      ∃ w, e = PyError.zeroVector w := by
  intro m
  induction m with
  | zero =>
      intro i e h
      simp [bendLoop] at h
  | succ n ih =>
      intro i e h
      rw [bendLoop] at h
      rcases ha : angle_between_vectors G (v.getD i vzero) (v.getD (i + 1) vzero)
        with e1 | a
      · rw [ha] at h
        simp only [exbind_error] at h
        obtain ⟨w, hw⟩ := angle_between_vectors_error ha
        exact ⟨w, (Except.error.inj h) ▸ hw⟩
      · rw [ha] at h
        simp only [exbind_ok] at h
        by_cases hi : 0 < i
        · rw [if_pos hi] at h
          rcases hr : calculate_rotation G (ns.getD (i - 1) vzero) (ns.getD i vzero)
            with e2 | r
          · rw [hr] at h
            simp only [exbind_error] at h
            obtain ⟨w, hw⟩ := calculate_rotation_error hr
            exact ⟨w, (Except.error.inj h) ▸ hw⟩
          · rw [hr] at h
            simp only [exbind_ok, expure] at h
            rcases hrec : bendLoop G clr v ns (i + 1) n with e3 | rest
            · rw [hrec] at h
              simp only [exbind_error] at h
              obtain ⟨w, hw⟩ := ih (i + 1) e3 hrec
              exact ⟨w, (Except.error.inj h) ▸ hw⟩
            · rw [hrec] at h
              simp only [exbind_ok, expure] at h
              exact Except.noConfusion h
        · rw [if_neg hi] at h
          simp only [exbind_ok, expure] at h
          rcases hrec : bendLoop G clr v ns (i + 1) n with e3 | rest
          · rw [hrec] at h
            simp only [exbind_error] at h
            obtain ⟨w, hw⟩ := ih (i + 1) e3 hrec
            exact ⟨w, (Except.error.inj h) ▸ hw⟩
          · rw [hrec] at h
            simp only [exbind_ok, expure] at h
            exact Except.noConfusion h

/-- If the calculation succeeds, the input had lines, the straights are
exactly the sections over the corrected chain, the in-bounds guard held,
and the bends come from the bend loop. -/
theorem calc_ok_elim {G : GeomFns} {lines : List (Point3D × Point3D)}
    {arcs : List ℚ} {ps : Point3D} {clr : ℚ} {u : UnitConfig}
    {s : List StraightSection} {b : List BendData}
    (h : calculate_straights_and_bends G lines arcs ps clr u = .ok (s, b)) :
    lines ≠ [] ∧ s = straightsOf G u (correctFrom ps lines) ∧
      arcs.length + 1 ≤ lines.length ∧
      bendLoop G clr (lineVectors (correctFrom ps lines))
        (normalsOf (lineVectors (correctFrom ps lines)) arcs.length) 0
        arcs.length = .ok b := by
  unfold calculate_straights_and_bends at h
  by_cases h1 : lines.isEmpty
  · rw [if_pos h1] at h
    exact Except.noConfusion h
  · rw [if_neg h1] at h
    by_cases h2 : (lineVectors (correctFrom ps lines)).length < arcs.length + 1
    · rw [if_pos h2] at h
      exact Except.noConfusion h
    · rw [if_neg h2] at h
      rcases hb : bendLoop G clr (lineVectors (correctFrom ps lines))
          (normalsOf (lineVectors (correctFrom ps lines)) arcs.length) 0
          arcs.length with e | bends
      · rw [hb] at h
        exact Except.noConfusion h
      · rw [hb] at h
        rw [exmap_ok] at h
        have hsb := Prod.mk.inj (Except.ok.inj h)
        have hlen : (lineVectors (correctFrom ps lines)).length = lines.length :=
          (lineVectors_length _).trans (correctFrom_length lines ps)
        rw [hlen] at h2
        refine ⟨fun hn => h1 (by simp [hn]), hsb.1.symm, by omega, ?_⟩
        exact congrArg Except.ok hsb.2

theorem exmap_error {α β ε : Type} (f : α → β) (e : ε) :
    Except.map f (Except.error e : Except ε α) = Except.error e := rfl

/-! ## C6: insufficient-geometry error -/

/-- C6 (amended): provided the list of lines is non-empty,
`calculate_straights_and_bends` fails with the insufficient-geometry
`ValueError` exactly when the number of straight direction vectors (one
per line) is less than the number of bends plus one; and whenever it
fails, no partial result is returned.  (With an empty line list the
function fails earlier, with the no-lines `ValueError` — see the
counterexample.) -/
theorem insufficient_geometry_iff (G : GeomFns)
    (lines : List (Point3D × Point3D)) (arcs : List ℚ) (ps : Point3D)
    (clr : ℚ) (u : UnitConfig) (hne : lines ≠ []) :
    ((∃ m n, calculate_straights_and_bends G lines arcs ps clr u =
        .error (.insufficientGeometry m n)) ↔
      lines.length < arcs.length + 1) ∧
    (∀ e out, calculate_straights_and_bends G lines arcs ps clr u = .error e →
      calculate_straights_and_bends G lines arcs ps clr u ≠ .ok out) := by
  have hemp : lines.isEmpty = false := by
    cases lines with
    | nil => exact absurd rfl hne
    | cons a l => rfl
  have hlen : (lineVectors (correctFrom ps lines)).length = lines.length :=
    (lineVectors_length _).trans (correctFrom_length lines ps)
  constructor
  · constructor
    · rintro ⟨m, n, hmn⟩
      unfold calculate_straights_and_bends at hmn
      rw [hemp] at hmn
      simp only [Bool.false_eq_true, if_false] at hmn
      by_cases hlt : (lineVectors (correctFrom ps lines)).length < arcs.length + 1
      · rw [← hlen]; exact hlt
      · rw [if_neg hlt] at hmn
        rcases hb : bendLoop G clr (lineVectors (correctFrom ps lines))
            (normalsOf (lineVectors (correctFrom ps lines)) arcs.length) 0
            arcs.length with e | bends
        · rw [hb, exmap_error] at hmn
          obtain ⟨w, hw⟩ := bendLoop_error arcs.length 0 e hb
          rw [hw] at hmn
          exact PyError.noConfusion (Except.error.inj hmn)
        · rw [hb, exmap_ok] at hmn
          exact Except.noConfusion hmn
    · intro hlt
      refine ⟨(lineVectors (correctFrom ps lines)).length, arcs.length, ?_⟩
      unfold calculate_straights_and_bends
      rw [hemp]
      simp only [Bool.false_eq_true, if_false]
      rw [if_pos (by rw [hlen]; exact hlt)]
  · intro e out he hout
    rw [he] at hout
    exact Except.noConfusion hout

/-- Witness for C6: with one line and two arcs (one direction vector,
fewer than the three required), the calculation fails with the
insufficient-geometry error. -/
theorem insufficient_geometry_iff_witness :
    ∃ m n, calculate_straights_and_bends gconst
        [(⟨0, 0, 0⟩, ⟨10, 0, 0⟩)] [3, 4] ⟨0, 0, 0⟩ 5 mockUnits =
      .error (.insufficientGeometry m n) :=
  (insufficient_geometry_iff gconst [(⟨0, 0, 0⟩, ⟨10, 0, 0⟩)] [3, 4]
    ⟨0, 0, 0⟩ 5 mockUnits (by simp)).1.mpr (by norm_num)

/-- Counterexample for C6 as stated: with no lines (and no arcs) the
vector count `0` is below `bends + 1 = 1`, yet the function does not fail
with the insufficient-geometry error — it fails with the distinct
no-lines `ValueError` raised earlier (`calculations.py:98-99`). -/
theorem insufficient_geometry_claim_cex :
    ¬((∃ m n, calculate_straights_and_bends gconst
          ([] : List (Point3D × Point3D)) ([] : List ℚ) ⟨0, 0, 0⟩ 0 mockUnits =
        .error (.insufficientGeometry m n)) ↔
      ([] : List (Point3D × Point3D)).length < ([] : List ℚ).length + 1) := by
  intro hiff
  obtain ⟨m, n, hmn⟩ := hiff.mpr (by norm_num)
  have hval : calculate_straights_and_bends gconst
      ([] : List (Point3D × Point3D)) ([] : List ℚ) ⟨0, 0, 0⟩ 0 mockUnits =
      .error .noLines := rfl
  rw [hval] at hmn
  exact PyError.noConfusion (Except.error.inj hmn)

/-! ## C8: generation with no straight elements -/

/-- C8: on an ordered path with no line elements the claim (and the spec,
§7) expect `generate` to return a failure `GenerationResult` with no
partial data; the code instead lets the no-lines `ValueError` raised by
`calculate_straights_and_bends` escape the generator (the `success=False`
branch at `bend_sheet_generator.py:96-100` is unreachable).  This theorem
evaluates the embedding at the failing input: the result is an escaping
exception, not a returned `GenerationResult`. -/
theorem generate_no_lines_escapes :
    generate gconst mockUnits [PathElem.arc 5] ⟨0, 0, 0⟩ params0 "Comp" "+X"
      true true = .error .noLines := rfl

theorem build_segments_fst (straights : List StraightSection)
    (bends : List BendData) (extra die : ℚ) :
    (build_segments_and_marks straights bends extra die).1 =
      segLoop extra straights bends := rfl

theorem build_segments_snd (straights : List StraightSection)
    (bends : List BendData) (extra die : ℚ) :
    (build_segments_and_marks straights bends extra die).2 =
      bends.map (markFor (segLoop extra straights bends) die) := rfl

/-! ## C4: rotation attribution -/

/-- The first bend built by the bend loop started at index `0` carries no
rotation (`calculations.py:166-168`: `rotation = None` unless `i > 0`). -/
theorem bendLoop_ok_first {G : GeomFns} {clr : ℚ} {v ns : List Vector3D} :
    ∀ (m : ℕ) (b : BendData) (bs : List BendData),
      bendLoop G clr v ns 0 m = .ok (b :: bs) → b.rotation = none := by
  intro m b bs h
  cases m with
  | zero => exact List.noConfusion (Except.ok.inj h)
  | succ n =>
      rw [bendLoop] at h
      rcases ha : angle_between_vectors G (v.getD 0 vzero) (v.getD 1 vzero)
        with e | a
      · rw [ha, exbind_error] at h
        exact Except.noConfusion h
      · rw [ha] at h
        simp only [exbind_ok] at h
        rw [if_neg (by omega)] at h
        simp only [expure, exbind_ok] at h
        rcases hrec : bendLoop G clr v ns 1 n with e | rest
        · rw [hrec] at h
          simp only [exbind_error] at h
          exact Except.noConfusion h
        · rw [hrec] at h
          simp only [exbind_ok, expure] at h
          have hhd := (List.cons.inj (Except.ok.inj h)).1
          rw [← hhd]

theorem segLoop_filter_straight_length :
    ∀ (ss : List StraightSection) (bends : List BendData) (cum : ℚ),
      ((segLoop cum ss bends).filter
        (fun g => g.segment_type == "straight")).length = ss.length := by
  intro ss
  induction ss with
  | nil =>
      intro bends cum
      cases bends <;> rfl
  | cons s rest ih =>
      intro bends cum
      cases bends with
      | nil => simp [segLoop, mkStraightSeg, List.filter_cons, ih]
      | cons b bs =>
          simp [segLoop, mkStraightSeg, mkBendSeg, List.filter_cons, ih]

theorem segLoop_straight_get :
    ∀ (ss : List StraightSection) (bends : List BendData) (cum : ℚ) (i : ℕ)
      (seg : PathSegment),
      ((segLoop cum ss bends).filter
        (fun g => g.segment_type == "straight"))[i]? = some seg →
      seg.rotation = bends[i]?.bind (fun bb => bb.rotation) := by
  intro ss
  induction ss with
  | nil =>
      intro bends cum i seg h
      cases bends <;> simp [segLoop] at h
  | cons s rest ih =>
      intro bends cum i seg h
      cases bends with
      | nil =>
          rw [segLoop, List.filter_cons] at h
          simp only [mkStraightSeg] at h
          cases i with
          | zero =>
              simp at h
              rw [← h]
              simp
          | succ j =>
              simp at h
              have := ih [] (cum + s.length) j seg h
              simpa using this
      | cons b bs =>
          rw [segLoop, List.filter_cons, List.filter_cons] at h
          simp only [mkStraightSeg, mkBendSeg] at h
          cases i with
          | zero =>
              simp at h
              rw [← h]
              simp
          | succ j =>
              simp at h
              have := ih bs (cum + s.length + b.arc_length) j seg h
              simpa using this

theorem segLoop_bend_rotation :
    ∀ (ss : List StraightSection) (bends : List BendData) (cum : ℚ)
      (seg : PathSegment), seg ∈ segLoop cum ss bends →
      seg.segment_type = "bend" → seg.rotation = none := by
  intro ss
  induction ss with
  | nil =>
      intro bends cum seg h
      cases bends <;> simp [segLoop] at h
  | cons s rest ih =>
      intro bends cum seg h htype
      cases bends with
      | nil =>
          rw [segLoop] at h
          rcases List.mem_cons.mp h with h1 | h1
          · rw [h1] at htype
            exact absurd htype (by simp [mkStraightSeg])
          · exact ih [] (cum + s.length) seg h1 htype
      | cons b bs =>
          rw [segLoop] at h
          rcases List.mem_cons.mp h with h1 | h1
          · rw [h1] at htype
            exact absurd htype (by simp [mkStraightSeg])
          · rcases List.mem_cons.mp h1 with h2 | h2
            · rw [h2]
              simp [mkBendSeg]
            · exact ih bs (cum + s.length + b.arc_length) seg h2 htype

/-- C4: in the output of `calculate_straights_and_bends`, the first
bend's rotation is `none` (not zero); and in the output of
`build_segments_and_marks`, there is one straight segment per straight
and the `i`-th straight segment carries the rotation value of the `i`-th
bend when one exists (`none` when it is the last straight or that bend's
rotation is `none`), while every bend segment's rotation field is always
`none`. -/
theorem rotation_attribution :
    (∀ (G : GeomFns) (lines : List (Point3D × Point3D)) (arcs : List ℚ)
        (ps : Point3D) (clr : ℚ) (u : UnitConfig) (s : List StraightSection)
        (b0 : BendData) (rest : List BendData),
      calculate_straights_and_bends G lines arcs ps clr u = .ok (s, b0 :: rest) →
        b0.rotation = none) ∧
    (∀ (straights : List StraightSection) (bends : List BendData)
        (extra die : ℚ),
      (((build_segments_and_marks straights bends extra die).1.filter
          (fun g => g.segment_type == "straight")).length = straights.length) ∧
      (∀ (i : ℕ) (seg : PathSegment),
        (((build_segments_and_marks straights bends extra die).1.filter
          (fun g => g.segment_type == "straight"))[i]? = some seg) →
        seg.rotation = bends[i]?.bind (fun bb => bb.rotation)) ∧
      (∀ seg ∈ (build_segments_and_marks straights bends extra die).1,
        seg.segment_type = "bend" → seg.rotation = none)) := by
  constructor
  · intro G lines arcs ps clr u s b0 rest h
    exact bendLoop_ok_first arcs.length b0 rest (calc_ok_elim h).2.2.2
  · intro straights bends extra die
    simp only [build_segments_fst]
    refine ⟨?_, ?_, ?_⟩
    · exact segLoop_filter_straight_length straights bends extra
    · intro i seg h
      exact segLoop_straight_get straights bends extra i seg h
    · intro seg h htype
      exact segLoop_bend_rotation straights bends extra seg h htype

/-- Witness for C4: a concrete run with two lines and one arc succeeds
and its first (and only) bend indeed has `rotation = none`. -/
theorem rotation_attribution_witness :
    ({ number := 1, angle := 0, rotation := none, arc_length := 0 } :
      BendData).rotation = none :=
  rotation_attribution.1 gconst
    [(⟨0, 0, 0⟩, ⟨10, 0, 0⟩), (⟨10, 0, 0⟩, ⟨10, 8, 0⟩)] [3] ⟨0, 0, 0⟩ 5
    mockUnits
    [{ number := 1, length := 0, start := ⟨0, 0, 0⟩, endPoint := ⟨10, 0, 0⟩,
       vector := ⟨10, 0, 0⟩ },
     { number := 2, length := 0, start := ⟨10, 0, 0⟩, endPoint := ⟨10, 8, 0⟩,
       vector := ⟨0, 8, 0⟩ }]
    { number := 1, angle := 0, rotation := none, arc_length := 0 } []
    (by norm_num [calculate_straights_and_bends, correctFrom, orientLine,
      distSq, lineVectors, straightsOf, straightsFrom, mkStraight, vsub,
      scalePoint, normalsOf, cross_product, bendLoop, angle_between_vectors,
      calculate_rotation, magnitudeSq, zeroTolSq, gconst, mockUnits, vzero,
      exbind_ok, exbind_error, expure, exmap_ok, List.getD])

/-! ## C1: mark positions -/

/-- Evaluation of `markFor` when the searched bend segment is found. -/
theorem markFor_eval (segments : List PathSegment) (die : ℚ) (b : BendData)
    (seg : PathSegment)
    (h : segments.find? (isBendSeg b.number) = some seg) :
    markFor segments die b =
      { bend_num := b.number, mark_position := seg.starts_at - die,
        bend_angle := b.angle, rotation := b.rotation } := by
  unfold markFor
  rw [h]

/-- The bend segment of bend `i` is the first (and, with injective bend
names, only) segment matching the search of `calculations.py:233-236`,
and it starts at the cumulative offset
`cum + Σ straight lengths up to i + Σ earlier arc lengths`. -/
theorem segLoop_find_bend :
    ∀ (i : ℕ) (ss : List StraightSection) (bends : List BendData) (cum : ℚ)
      (hi : i < bends.length) (hs : i < ss.length),
      (∀ k (hk : k < bends.length),
        bendName (bends[k]).number = bendName (bends[i]).number → k = i) →
      (segLoop cum ss bends).find? (isBendSeg (bends[i]).number)
        = some (mkBendSeg (bends[i])
            (cum + ((ss.take (i + 1)).map (fun s => s.length)).sum
              + ((bends.take i).map (fun b => b.arc_length)).sum)) := by
  intro i
  induction i with
  | zero =>
      intro ss bends cum hi hs hinj
      cases bends with
      | nil => simp at hi
      | cons b bs =>
          cases ss with
          | nil => simp at hs
          | cons s rest =>
              rw [segLoop]
              rw [List.find?_cons_of_neg _ (by simp [isBendSeg, mkStraightSeg]),
                List.find?_cons_of_pos _ (by simp [isBendSeg, mkBendSeg])]
              simp only [List.getElem_cons_zero, List.take_succ_cons,
                List.take_zero, List.map_cons, List.map_nil, List.sum_cons,
                List.sum_nil]
              congr 1
              ring_nf
  | succ j ih =>
      intro ss bends cum hi hs hinj
      cases bends with
      | nil => simp at hi
      | cons b bs =>
          cases ss with
          | nil => simp at hs
          | cons s rest =>
              have hne : ¬(bendName b.number =
                  bendName ((b :: bs)[j + 1]).number) := by
                intro hcontra
                have := hinj 0 (by simp only [List.length_cons]; omega)
                  (by simpa using hcontra)
                omega
              rw [segLoop]
              rw [List.find?_cons_of_neg _ (by simp [isBendSeg, mkStraightSeg]),
                List.find?_cons_of_neg _ (by
                  simp only [isBendSeg, mkBendSeg]
                  simp only [List.getElem_cons_succ] at hne ⊢
                  simp [hne])]
              have hrec := ih rest bs (cum + s.length + b.arc_length)
                (by simpa using hi) (by simpa using hs)
                (fun k hk hname => by
                  have := hinj (k + 1) (by simp only [List.length_cons]; omega)
                    (by simpa using hname)
                  omega)
              simp only [List.getElem_cons_succ]
              rw [hrec]
              simp only [List.take_succ_cons, List.map_cons, List.sum_cons]
              congr 1
              ring_nf

/-- The concrete bend of the spec scenario: angle 45, arc length 5. -/
def bd1C : BendData :=
  { number := 1, angle := 45, rotation := none, arc_length := 5 }

/-- C1: for straights of lengths `[10, 10]` and one bend with arc length
`5`, extra material `2` and die offset `0.5`, the three segments span
`(2,12), (12,17), (17,27)` and the single mark position is `11.5`; in
general, for every bend (at index `i`, with bend names injective and a
straight available) the bend segment found in the timeline starts at the
cumulative offset, and its mark position equals that `starts_at` minus
the die offset. -/
theorem segments_and_marks_spec :
    ((build_segments_and_marks [st 1 10, st 2 10] [bd1C] 2
        (1 / 2)).1.map (fun g => (g.starts_at, g.ends_at)) =
      [(2, 12), (12, 17), (17, 27)] ∧
     (build_segments_and_marks [st 1 10, st 2 10] [bd1C] 2
        (1 / 2)).2.map (fun m => m.mark_position) = [23 / 2]) ∧
    (∀ (straights : List StraightSection) (bends : List BendData)
        (extra die : ℚ) (i : ℕ) (hi : i < bends.length), i < straights.length →
      (∀ k (hk : k < bends.length),
        bendName (bends[k]).number = bendName (bends[i]).number → k = i) →
      ∃ seg mk,
        (build_segments_and_marks straights bends extra die).1.find?
          (isBendSeg (bends[i]).number) = some seg ∧
        seg.starts_at = extra
          + ((straights.take (i + 1)).map (fun s => s.length)).sum
          + ((bends.take i).map (fun b => b.arc_length)).sum ∧
        (build_segments_and_marks straights bends extra die).2[i]? = some mk ∧
        mk.mark_position = seg.starts_at - die) := by
  constructor
  · constructor
    · norm_num [build_segments_and_marks, segLoop, mkStraightSeg, mkBendSeg,
        st, bd1C]
    · have hfind := segLoop_find_bend 0 [st 1 10, st 2 10] [bd1C] 2
        (by norm_num) (by norm_num)
        (fun k hk _ => by
          simp only [List.length_cons, List.length_nil] at hk; omega)
      have hm := markFor_eval (segLoop 2 [st 1 10, st 2 10] [bd1C]) (1 / 2)
        bd1C _ (by exact hfind)
      rw [build_segments_snd]
      simp only [List.map_cons, List.map_nil, hm]
      norm_num [mkBendSeg, st, bd1C]
  · intro straights bends extra die i hi hs hinj
    have hfind := segLoop_find_bend i straights bends extra hi hs hinj
    rw [build_segments_fst, build_segments_snd]
    refine ⟨_, markFor (segLoop extra straights bends) die (bends[i]), hfind,
      rfl, ?_, ?_⟩
    · rw [List.getElem?_map, List.getElem?_eq_getElem hi]
      rfl
    · rw [markFor_eval _ _ _ _ hfind]

/-- Witness for C1's general part: the concrete single-bend run, with the
hypotheses discharged at `i = 0`. -/
theorem segments_and_marks_spec_witness :
    ∃ seg mk,
      (build_segments_and_marks [st 1 10, st 2 10] [bd1C] 2
        (1 / 2)).1.find?
          (isBendSeg (([bd1C] : List BendData)[0]).number) = some seg ∧
      seg.starts_at = 2
        + ((([st 1 10, st 2 10].take 1).map (fun s => s.length)).sum)
        + ((([bd1C] : List BendData).take 0).map (fun b => b.arc_length)).sum ∧
      (build_segments_and_marks [st 1 10, st 2 10] [bd1C] 2
        (1 / 2)).2[0]? = some mk ∧
      mk.mark_position = seg.starts_at - 1 / 2 :=
  segments_and_marks_spec.2 [st 1 10, st 2 10] [bd1C] 2 (1 / 2) 0
    (by norm_num) (by norm_num)
    (fun k hk _ => by
      simp only [List.length_cons, List.length_nil] at hk; omega)

/-! ## C5: timeline contiguity and totals -/

theorem segLoop_ne_nil (ss : List StraightSection) (bends : List BendData)
    (cum : ℚ) (h : ss ≠ []) : segLoop cum ss bends ≠ [] := by
  cases ss with
  | nil => exact absurd rfl h
  | cons s rest => cases bends <;> simp [segLoop]

theorem getLast?_cons_ne {α : Type} (a : α) (l : List α) (h : l ≠ []) :
    (a :: l).getLast? = l.getLast? := by
  cases l with
  | nil => exact absurd rfl h
  | cons b m => exact List.getLast?_cons_cons

/-- The first segment of a non-empty timeline starts at the initial
cumulative offset. -/
theorem segLoop_head (ss : List StraightSection) (bends : List BendData)
    (cum : ℚ) (seg : PathSegment)
    (h : (segLoop cum ss bends).head? = some seg) : seg.starts_at = cum := by
  cases ss with
  | nil => cases bends <;> simp [segLoop] at h
  | cons s rest =>
      cases bends <;>
        simp only [segLoop, List.head?_cons, Option.some.injEq] at h <;>
        rw [← h] <;> rfl

/-- Timeline contiguity: every segment's `ends_at` is the next segment's
`starts_at`. -/
theorem segLoop_chain :
    ∀ (ss : List StraightSection) (bends : List BendData) (cum : ℚ),
      List.Chain' (fun a b => a.ends_at = b.starts_at) (segLoop cum ss bends) := by
  intro ss
  induction ss with
  | nil => intro bends cum; cases bends <;> exact List.chain'_nil
  | cons s rest ih =>
      intro bends cum
      cases bends with
      | nil =>
          rw [segLoop]
          refine List.chain'_cons'.mpr ⟨?_, ih [] (cum + s.length)⟩
          intro y hy
          rw [segLoop_head rest [] (cum + s.length) y hy]
          rfl
      | cons b bs =>
          rw [segLoop]
          refine List.chain'_cons'.mpr ⟨?_, List.chain'_cons'.mpr
            ⟨?_, ih bs (cum + s.length + b.arc_length)⟩⟩
          · intro y hy
            simp only [List.head?_cons, Option.mem_def,
              Option.some.injEq] at hy
            rw [← hy]
            rfl
          · intro y hy
            rw [segLoop_head rest bs (cum + s.length + b.arc_length) y hy]
            rfl

/-- Final cumulative offset: with at least as many straights as bends,
the last segment ends at the initial offset plus all straight lengths
plus all arc lengths. -/
theorem segLoop_last_ends :
    ∀ (ss : List StraightSection) (bends : List BendData) (cum : ℚ),
      ss ≠ [] → bends.length ≤ ss.length →
      ((segLoop cum ss bends).map (fun g => g.ends_at)).getLast? =
        some (cum + (ss.map (fun s => s.length)).sum
          + (bends.map (fun b => b.arc_length)).sum) := by
  intro ss
  induction ss with
  | nil => intro bends cum h; exact absurd rfl h
  | cons s rest ih =>
      intro bends cum _ hlen
      cases bends with
      | nil =>
          by_cases hr : rest = []
          · subst hr
            simp [segLoop, mkStraightSeg]
          · rw [segLoop, List.map_cons,
              getLast?_cons_ne _ _ (by
                simp only [ne_eq, List.map_eq_nil_iff]
                exact segLoop_ne_nil rest [] (cum + s.length) hr),
              ih [] (cum + s.length) hr (by simp)]
            simp only [List.map_cons, List.sum_cons, List.map_nil,
              List.sum_nil, Option.some.injEq]
            ring
      | cons b bs =>
          have hlen2 : bs.length ≤ rest.length := by
            simp only [List.length_cons] at hlen
            omega
          by_cases hr : rest = []
          · subst hr
            have hbs : bs = [] := by
              simp only [List.length_nil, Nat.le_zero,
                List.length_eq_zero] at hlen2
              exact hlen2
            subst hbs
            simp [segLoop, mkStraightSeg, mkBendSeg]
          · rw [segLoop, List.map_cons, List.map_cons,
              getLast?_cons_ne _ _ (by simp),
              getLast?_cons_ne _ _ (by
                simp only [ne_eq, List.map_eq_nil_iff]
                exact segLoop_ne_nil rest bs (cum + s.length + b.arc_length) hr),
              ih bs (cum + s.length + b.arc_length) hr hlen2]
            simp only [List.map_cons, List.sum_cons, Option.some.injEq]
            ring

/-- Second bend of the spec scenario (arc length 2). -/
def bd2a : BendData :=
  { number := 1, angle := 45, rotation := none, arc_length := 2 }

/-- Third bend of the spec scenario (arc length 4). -/
def bd2b : BendData :=
  { number := 2, angle := 90, rotation := some 15, arc_length := 4 }

/-- C5 (amended): for every list of straights and bends the segments of
`build_segments_and_marks` are contiguous, and the generator's
`total_cut_length` equals the sum of its straight lengths plus its arc
lengths plus its extra material; and whenever there is at least one
straight and at least as many straights as bends (always true for
pipeline outputs, where straights = bends + 1), the final segment's
`ends_at` equals `extra_material + Σ lengths + Σ arc lengths`.  (For more
bends than straights the trailing bends never enter the timeline — see
the counterexample.) -/
theorem timeline_totals :
    (∀ (straights : List StraightSection) (bends : List BendData)
        (extra die : ℚ),
      List.Chain' (fun a b => a.ends_at = b.starts_at)
        (build_segments_and_marks straights bends extra die).1) ∧
    (∀ (straights : List StraightSection) (bends : List BendData)
        (extra die : ℚ), straights ≠ [] → bends.length ≤ straights.length →
      ((build_segments_and_marks straights bends extra die).1.map
        (fun g => g.ends_at)).getLast? =
        some (extra + (straights.map (fun s => s.length)).sum
          + (bends.map (fun b => b.arc_length)).sum)) ∧
    (∀ (G : GeomFns) (u : UnitConfig) (path : List PathElem) (ps : Point3D)
        (params : BendSheetParams) (cn td : String) (swa ewa : Bool)
        (r : GenerationResult) (d : BendSheetData),
      generate G u path ps params cn td swa ewa = .ok r → r.data = some d →
      d.total_cut_length = (d.straights.map (fun s => s.length)).sum
        + (d.bends.map (fun b => b.arc_length)).sum + d.extra_material) := by
  refine ⟨?_, ?_, ?_⟩
  · intro straights bends extra die
    rw [build_segments_fst]
    exact segLoop_chain straights bends extra
  · intro straights bends extra die h1 h2
    rw [build_segments_fst]
    exact segLoop_last_ends straights bends extra h1 h2
  · intro G u path ps params cn td swa ewa r d h hd
    unfold generate at h
    rcases hc : calculate_straights_and_bends G (pathLines path)
        (pathArcs path) ps (validate_clr_consistency (pathArcs path) u).1 u
      with e | sb
    · rw [hc, exmap_error] at h
      exact Except.noConfusion h
    · rw [hc, exmap_ok] at h
      have hr := (Except.ok.inj h).symm
      by_cases he : sb.1.isEmpty
      · rw [hr, if_pos he] at hd
        simp at hd
      · rw [hr, if_neg he] at hd
        simp only [] at hd
        rw [← Option.some.inj hd]

/-- Witness for C5: the spec scenario with straights `(5, 7, 3)`, arc
lengths `(2, 4)` and extra material `1` ends at `22`. -/
theorem timeline_totals_witness :
    ((build_segments_and_marks [st 1 5, st 2 7, st 3 3] [bd2a, bd2b] 1
        0).1.map (fun g => g.ends_at)).getLast? =
      some (1 + ([st 1 5, st 2 7, st 3 3].map (fun s => s.length)).sum
        + ([bd2a, bd2b].map (fun b => b.arc_length)).sum) :=
  timeline_totals.2.1 [st 1 5, st 2 7, st 3 3] [bd2a, bd2b] 1 0 (by simp)
    (by simp)

/-- Counterexample for C5 as stated: with one straight (length 5) and two
bends (arc lengths 2 and 4), extra material 1, the final `ends_at` is
`8` (the second bend never enters the timeline), not
`1 + 5 + (2 + 4) = 12` as the unrestricted claim would require. -/
theorem timeline_totals_cex :
    ¬(((build_segments_and_marks [st 1 5] [bd2a, bd2b] 1 0).1.map
        (fun g => g.ends_at)).getLast? =
      some (1 + ([st 1 5].map (fun s => s.length)).sum
        + ([bd2a, bd2b].map (fun b => b.arc_length)).sum)) := by
  norm_num [build_segments_fst, segLoop, mkStraightSeg, mkBendSeg, st,
    bd2a, bd2b]

/-! ## C7: grip and tail policy -/

theorem dropLast_of_length_le_one {α : Type} (l : List α) (h : l.length ≤ 1) :
    l.dropLast = [] := by
  cases l with
  | nil => rfl
  | cons a t =>
      cases t with
      | nil => rfl
      | cons b t2 => simp at h

/-- C7: whenever the calculation step succeeds, generation succeeds (grip
and tail violations are reported in the result, never raised), the extra
material is `max 0 (min_grip − (first straight length − die_offset))`
when a minimum grip is configured and `0` when `min_grip = 0`, the grip
violations are exactly the non-last straights shorter than `min_grip`,
and the tail-violation flag is set iff a minimum tail is configured and
the last straight is shorter than it. -/
theorem grip_and_tail_policy :
    ∀ (G : GeomFns) (u : UnitConfig) (path : List PathElem) (ps : Point3D)
      (params : BendSheetParams) (cn td : String) (swa ewa : Bool)
      (straights : List StraightSection) (bends : List BendData),
      calculate_straights_and_bends G (pathLines path) (pathArcs path) ps
        (validate_clr_consistency (pathArcs path) u).1 u = .ok (straights, bends) →
      ∃ r d, generate G u path ps params cn td swa ewa = .ok r ∧
        r.success = true ∧ r.data = some d ∧ d.straights = straights ∧
        (params.min_grip > 0 →
          d.extra_material = max 0 (params.min_grip -
            ((straights.headD sdummy).length - params.die_offset))) ∧
        (params.min_grip = 0 → d.extra_material = 0) ∧
        (params.min_grip > 0 →
          d.grip_violations = (straights.dropLast.filter
            (fun s => decide (s.length < params.min_grip))).map
            (fun s => s.number)) ∧
        (d.tail_violation = true ↔
          params.min_tail > 0 ∧
            (straights.getLastD sdummy).length < params.min_tail) := by
  intro G u path ps params cn td swa ewa straights bends hcalc
  obtain ⟨hlines, hs_eq, -, -⟩ := calc_ok_elim hcalc
  have hlen : straights.length = (pathLines path).length := by
    rw [hs_eq, straightsOf_length, correctFrom_length]
  have hpos : 0 < straights.length := by
    rw [hlen]
    exact List.length_pos.mpr hlines
  have hne : straights.isEmpty = false :=
    List.isEmpty_eq_false.mpr (by
      intro hnil
      rw [hnil] at hpos
      simp at hpos)
  unfold generate
  rw [hcalc, exmap_ok]
  simp only []
  rw [hne]
  simp only [Bool.false_eq_true, if_false]
  refine ⟨_, _, rfl, rfl, rfl, rfl, ?_, ?_, ?_, ?_⟩
  · intro hg
    show (if params.min_grip > 0 then
        max 0 (params.min_grip - ((straights.headD sdummy).length -
          params.die_offset))
      else 0) = _
    rw [if_pos hg]
  · intro h0
    show (if params.min_grip > 0 then
        max 0 (params.min_grip - ((straights.headD sdummy).length -
          params.die_offset))
      else 0) = 0
    rw [if_neg (by simp [h0])]
  · intro hg
    show (if params.min_grip > 0 ∧ 1 < straights.length then
        (straights.dropLast.filter
          (fun s => decide (s.length < params.min_grip))).map
          (fun s => s.number)
      else []) = _
    by_cases hl : 1 < straights.length
    · rw [if_pos ⟨hg, hl⟩]
    · rw [if_neg (by tauto),
        dropLast_of_length_le_one straights (by omega)]
      rfl
  · show (if params.min_tail > 0 ∧ 0 < straights.length then
        decide ((straights.getLastD sdummy).length < params.min_tail)
      else false) = true ↔ _
    by_cases ht : params.min_tail > 0
    · rw [if_pos ⟨ht, hpos⟩]
      simp [ht]
    · rw [if_neg (by tauto)]
      simp [ht]

/-- Concrete ordered path: line, arc (radius 5), line. -/
def path0 : List PathElem :=
  [.line (⟨0, 0, 0⟩, ⟨10, 0, 0⟩), .arc 5, .line (⟨10, 0, 0⟩, ⟨10, 8, 0⟩)]

/-- Witness for C7: on the concrete path the generator succeeds and the
extra material follows the grip formula (with `min_grip = 3`,
`die_offset = 1/2`). -/
theorem grip_and_tail_policy_witness :
    ∃ r d, generate gconst mockUnits path0 ⟨0, 0, 0⟩ params0 "c" "+X"
        false false = .ok r ∧
      r.success = true ∧ r.data = some d ∧
      d.extra_material = max 0 (params0.min_grip -
        (((straightsOf gconst mockUnits
            (correctFrom ⟨0, 0, 0⟩ (pathLines path0))).headD sdummy).length -
          params0.die_offset)) := by
  have hcalc : calculate_straights_and_bends gconst (pathLines path0)
      (pathArcs path0) ⟨0, 0, 0⟩
      (validate_clr_consistency (pathArcs path0) mockUnits).1 mockUnits =
      .ok (straightsOf gconst mockUnits
        (correctFrom ⟨0, 0, 0⟩ (pathLines path0)),
        [{ number := 1, angle := 0, rotation := none, arc_length := 0 }]) := by
    norm_num [calculate_straights_and_bends, correctFrom, orientLine, distSq,
      lineVectors, straightsOf, straightsFrom, mkStraight, vsub, scalePoint,
      normalsOf, cross_product, bendLoop, angle_between_vectors,
      calculate_rotation, magnitudeSq, zeroTolSq, gconst, mockUnits, vzero,
      exbind_ok, exbind_error, expure, exmap_ok, List.getD, pathLines,
      pathArcs, path0, validate_clr_consistency, clrToleranceRate,
      List.filterMap_cons, List.filterMap_nil, List.isEmpty_iff,
      Option.some_ne_none]
  obtain ⟨r, d, h1, h2, h3, h4, h5, -, -, -⟩ :=
    grip_and_tail_policy gconst mockUnits path0 ⟨0, 0, 0⟩ params0 "c" "+X"
      false false _ _ hcalc
  exact ⟨r, d, h1, h2, h3, h5 (by norm_num [params0])⟩

/-! ## C2: orientation correction -/

/-- Orientation keeps the endpoint pair, possibly swapped. -/
theorem orientLine_eq_or_swap (ref : Point3D) (lp : Point3D × Point3D) :
    orientLine ref lp = lp ∨ orientLine ref lp = lp.swap := by
  unfold orientLine
  split_ifs with h
  · right
    rfl
  · left
    exact Prod.mk.eta

/-- The chosen start is (weakly) nearer to the reference point than the
other endpoint, in squared distance — equivalently (see
`distSq_lt_iff_sqrt_lt`) in Euclidean distance. -/
theorem orientLine_nearer (ref : Point3D) (lp : Point3D × Point3D) :
    distSq (orientLine ref lp).1 ref ≤ distSq (orientLine ref lp).2 ref := by
  unfold orientLine
  split_ifs with h
  · exact le_of_lt h
  · exact not_lt.mp h

theorem correctFrom_getD_zero (lines : List (Point3D × Point3D))
    (ref : Point3D) (pd : Point3D × Point3D) (h : lines ≠ []) :
    (correctFrom ref lines).getD 0 pd = orientLine ref (lines.getD 0 pd) := by
  cases lines with
  | nil => exact absurd rfl h
  | cons lp rest => rfl

theorem correctFrom_getD_succ :
    ∀ (lines : List (Point3D × Point3D)) (ref : Point3D) (i : ℕ)
      (pd : Point3D × Point3D), i + 1 < lines.length →
      (correctFrom ref lines).getD (i + 1) pd =
        orientLine ((correctFrom ref lines).getD i pd).2
          (lines.getD (i + 1) pd) := by
  intro lines
  induction lines with
  | nil =>
      intro ref i pd h
      simp at h
  | cons lp rest ih =>
      intro ref i pd h
      cases i with
      | zero =>
          rw [correctFrom]
          simp only [List.getD_cons_succ, List.getD_cons_zero]
          exact correctFrom_getD_zero rest (orientLine ref lp).2 pd (by
            intro hnil
            rw [hnil] at h
            simp at h)
      | succ j =>
          rw [correctFrom]
          simp only [List.getD_cons_succ]
          exact ih (orientLine ref lp).2 j pd (by
            simp only [List.length_cons] at h
            omega)

/-- The start/end points stored in the straight sections are the scaled
corrected endpoints (`calculations.py:131-143`). -/
theorem straightsFrom_map_ends (G : GeomFns) (u : UnitConfig) :
    ∀ (c : List (Point3D × Point3D)) (i : ℕ),
      (straightsFrom G u i c).map (fun t => (t.start, t.endPoint)) =
        c.map (fun cc =>
          (scalePoint u.cm_to_unit cc.1, scalePoint u.cm_to_unit cc.2)) := by
  intro c
  induction c with
  | nil => intro i; rfl
  | cons cc rest ih =>
      intro i
      simp only [straightsFrom, List.map_cons, ih]
      rfl

/-- C2: `calculate_straights_and_bends` orients the first straight so
that its start is whichever raw endpoint is nearer (in squared, hence
Euclidean, distance) to the path start point, and each subsequent
straight so that its start is the endpoint nearer to the previous
corrected straight's end; each corrected pair is the raw pair or its
swap, and on success the returned straights carry exactly the scaled
corrected endpoints. -/
theorem orientation_correction :
    ∀ (ps : Point3D) (lines : List (Point3D × Point3D)), lines ≠ [] →
      (correctFrom ps lines).length = lines.length ∧
      (∀ (i : ℕ) (pd : Point3D × Point3D), i < lines.length →
        (correctFrom ps lines).getD i pd = lines.getD i pd ∨
        (correctFrom ps lines).getD i pd = (lines.getD i pd).swap) ∧
      (∀ pd : Point3D × Point3D,
        distSq ((correctFrom ps lines).getD 0 pd).1 ps ≤
          distSq ((correctFrom ps lines).getD 0 pd).2 ps) ∧
      (∀ (i : ℕ) (pd : Point3D × Point3D), i + 1 < lines.length →
        distSq ((correctFrom ps lines).getD (i + 1) pd).1
            (((correctFrom ps lines).getD i pd).2) ≤
          distSq ((correctFrom ps lines).getD (i + 1) pd).2
            (((correctFrom ps lines).getD i pd).2)) ∧
      (∀ (G : GeomFns) (arcs : List ℚ) (clr : ℚ) (u : UnitConfig)
          (s : List StraightSection) (b : List BendData),
        calculate_straights_and_bends G lines arcs ps clr u = .ok (s, b) →
        s.map (fun t => (t.start, t.endPoint)) =
          (correctFrom ps lines).map (fun cc =>
            (scalePoint u.cm_to_unit cc.1, scalePoint u.cm_to_unit cc.2))) := by
  intro ps lines hne
  refine ⟨correctFrom_length lines ps, ?_, ?_, ?_, ?_⟩
  · intro i pd hi
    cases i with
    | zero =>
        rw [correctFrom_getD_zero lines ps pd hne]
        exact orientLine_eq_or_swap ps (lines.getD 0 pd)
    | succ j =>
        rw [correctFrom_getD_succ lines ps j pd hi]
        exact orientLine_eq_or_swap _ (lines.getD (j + 1) pd)
  · intro pd
    rw [correctFrom_getD_zero lines ps pd hne]
    exact orientLine_nearer ps (lines.getD 0 pd)
  · intro i pd hi
    rw [correctFrom_getD_succ lines ps i pd hi]
    exact orientLine_nearer _ (lines.getD (i + 1) pd)
  · intro G arcs clr u s b h
    obtain ⟨-, hs_eq, -, -⟩ := calc_ok_elim h
    rw [hs_eq]
    exact straightsFrom_map_ends G u (correctFrom ps lines) 0

/-- Witness for C2: with the first line stored backwards, the corrected
chain starts at the endpoint nearest the path start. -/
theorem orientation_correction_witness :
    distSq ((correctFrom ⟨0, 0, 0⟩
        [(⟨10, 0, 0⟩, ⟨0, 0, 0⟩), (⟨10, 0, 0⟩, ⟨10, 8, 0⟩)]).getD 0
        (⟨0, 0, 0⟩, ⟨0, 0, 0⟩)).1 ⟨0, 0, 0⟩ ≤
      distSq ((correctFrom ⟨0, 0, 0⟩
        [(⟨10, 0, 0⟩, ⟨0, 0, 0⟩), (⟨10, 0, 0⟩, ⟨10, 8, 0⟩)]).getD 0
        (⟨0, 0, 0⟩, ⟨0, 0, 0⟩)).2 ⟨0, 0, 0⟩ :=
  ((orientation_correction ⟨0, 0, 0⟩
    [(⟨10, 0, 0⟩, ⟨0, 0, 0⟩), (⟨10, 0, 0⟩, ⟨10, 8, 0⟩)]
    (by simp)).2.2.1) (⟨0, 0, 0⟩, ⟨0, 0, 0⟩)

/-! ## C10: endpoint-order insensitivity -/

/-- Along the corrected chain, each line's two endpoints lie at strictly
different (squared) distances from its reference point: the path start
for the first line, the previous corrected line's end for each later
line. -/
def strictChainB (ref : Point3D) : List (Point3D × Point3D) → Bool
  | [] => true
  | lp :: rest =>
      decide (distSq lp.1 ref ≠ distSq lp.2 ref) &&
        strictChainB (orientLine ref lp).2 rest

/-- With strictly different distances, orientation is insensitive to the
stored endpoint order. -/
theorem orientLine_swap_eq (ref : Point3D) (lp : Point3D × Point3D)
    (h : distSq lp.1 ref ≠ distSq lp.2 ref) :
    orientLine ref lp.swap = orientLine ref lp := by
  unfold orientLine
  rcases lt_trichotomy (distSq lp.1 ref) (distSq lp.2 ref) with hlt | heq | hgt
  · rw [if_pos (by simpa using hlt), if_neg (by simp; exact le_of_lt hlt)]
    rfl
  · exact absurd heq h
  · rw [if_neg (by simp; exact le_of_lt hgt), if_pos (by simpa using hgt)]
    rfl

theorem correctFrom_set_swap :
    ∀ (lines : List (Point3D × Point3D)) (ref : Point3D) (j : ℕ)
      (lp : Point3D × Point3D),
      strictChainB ref lines = true → lines[j]? = some lp →
      correctFrom ref (lines.set j lp.swap) = correctFrom ref lines := by
  intro lines
  induction lines with
  | nil =>
      intro ref j lp hstrict hj
      simp at hj
  | cons l0 rest ih =>
      intro ref j lp hstrict hj
      simp only [strictChainB, Bool.and_eq_true, decide_eq_true_eq] at hstrict
      cases j with
      | zero =>
          simp only [List.getElem?_cons_zero, Option.some.injEq] at hj
          subst hj
          rw [List.set_cons_zero, correctFrom, correctFrom,
            orientLine_swap_eq ref l0 hstrict.1]
      | succ k =>
          simp only [List.getElem?_cons_succ] at hj
          rw [List.set_cons_succ, correctFrom, correctFrom,
            ih (orientLine ref l0).2 k lp hstrict.2 hj]

/-- C10: with strictly different endpoint distances along the corrected
chain, swapping the stored endpoint pair of any input line leaves the
corrected orientations — and hence the whole output of
`calculate_straights_and_bends` (straights, vectors and bends) —
unchanged. -/
theorem endpoint_order_insensitive :
    ∀ (G : GeomFns) (lines : List (Point3D × Point3D)) (arcs : List ℚ)
      (ps : Point3D) (clr : ℚ) (u : UnitConfig) (j : ℕ)
      (lp : Point3D × Point3D),
      strictChainB ps lines = true → lines[j]? = some lp →
      correctFrom ps (lines.set j lp.swap) = correctFrom ps lines ∧
      calculate_straights_and_bends G (lines.set j lp.swap) arcs ps clr u =
        calculate_straights_and_bends G lines arcs ps clr u := by
  intro G lines arcs ps clr u j lp hstrict hj
  have hc := correctFrom_set_swap lines ps j lp hstrict hj
  have hemp : (lines.set j lp.swap).isEmpty = lines.isEmpty := by
    cases lines with
    | nil => rfl
    | cons a t => cases j <;> rfl
  refine ⟨hc, ?_⟩
  unfold calculate_straights_and_bends
  rw [hc, hemp]

/-- Witness for C10: swapping the stored endpoints of the first line of a
concrete two-line chain (all endpoint distances strictly different)
leaves the calculation output unchanged. -/
theorem endpoint_order_insensitive_witness :
    calculate_straights_and_bends gconst
        ([(⟨0, 0, 0⟩, ⟨10, 0, 0⟩),
          (⟨10, 0, 0⟩, ⟨10, 8, 0⟩)].set 0
          ((⟨0, 0, 0⟩, ⟨10, 0, 0⟩) : Point3D × Point3D).swap) [3] ⟨0, 0, 0⟩ 5
        mockUnits =
      calculate_straights_and_bends gconst
        [(⟨0, 0, 0⟩, ⟨10, 0, 0⟩), (⟨10, 0, 0⟩, ⟨10, 8, 0⟩)] [3] ⟨0, 0, 0⟩ 5
        mockUnits :=
  (endpoint_order_insensitive gconst
    [(⟨0, 0, 0⟩, ⟨10, 0, 0⟩), (⟨10, 0, 0⟩, ⟨10, 8, 0⟩)] [3] ⟨0, 0, 0⟩ 5
    mockUnits 0 (⟨0, 0, 0⟩, ⟨10, 0, 0⟩)
    (by norm_num [strictChainB, orientLine, distSq]) (by rfl)).2

end TubeBendSheet
